import Mathlib

/-!
A verification development for a resume/course retrieval-and-ranking engine.

The embedded program parts:
* `FaissHandler` (a per-content-type vector index plus a parallel metadata
  corpus, persisted to disk after every mutation) — `src/tools/faiss_utils.py`;
* the LLM client `call_llm_api` with in-memory caching, bounded retry with
  exponential backoff and jitter, plus the JSON-extracting wrapper
  `call_llm_api_json` — `src/tools/llm_api.py`;
* the relevance analyzer `analyze_course_relevance` and the ranker
  `rank_and_filter_courses` — `src/tools/course_fetcher.py`;
* the enhancement pipeline `enhance_resume` with the fallback wrappers
  `clean_enhance_resume` / `handle_llm_fallback` — `src/tools/pipeline.py`
  and `src/crew/tools.py`.

Python strings are modeled as Lean `String` / `List Char`; Python numbers
as `ℚ` (the program only manipulates them through comparisons and
arithmetic that `ℚ` reproduces); Python dict/JSON values as the `JVal`
inductive; `requests`/FAISS/the embedding model as explicit oracles passed
in as arguments.  Fallible code returns `Option`.
-/

/-! ## Python-style string helpers (over `List Char`) -/

/-- Python whitespace set used by `str.strip()` (space, tab, newline,
carriage return, vertical tab, form feed). -/
def pyIsSpace (c : Char) : Bool :=
  c = ' ' || c = '\t' || c = '\n' || c = '\r' || c = Char.ofNat 11 || c = Char.ofNat 12

/-- Python `str.strip()` on a character list. -/
def pyStrip (l : List Char) : List Char :=
  ((l.dropWhile pyIsSpace).reverse.dropWhile pyIsSpace).reverse

/-- Python `pat in s` substring test (`pat` nonempty in all uses). -/
def containsSub (pat : List Char) : List Char → Bool
  | [] => pat.isEmpty
  | c :: rest => pat.isPrefixOf (c :: rest) || containsSub pat rest

/-- Python `str.lower()` on a character list (ASCII, which is all the
program compares). -/
def lowerL (l : List Char) : List Char := l.map Char.toLower

/-- Digits of a natural number, most significant first; fueled so that it
reduces in the kernel (`fuel ≥ 1 + log10 n` suffices). -/
def natDigits : Nat → Nat → List Char
  | 0, _ => []
  | f + 1, n => if n < 10 then [Nat.digitChar n] else
      natDigits f (n / 10) ++ [Nat.digitChar (n % 10)]

/-- Python `str(n)` for a natural number. -/
def natStr (n : Nat) : String := ⟨natDigits (n + 1) n⟩

/-- Python `str.capitalize()`: first character uppercased, rest lowercased. -/
def pyCapitalize (s : String) : String :=
  match s.data with
  | [] => ⟨[]⟩
  | c :: rest => ⟨c.toUpper :: lowerL rest⟩

/-! ## Association lists (modelling Python `dict`s keyed by strings) -/

/-- `d.get(k)` on an association list (first binding wins, as a Python dict
has unique keys). -/
def lookupA {α : Type _} (l : List (String × α)) (k : String) : Option α :=
  (l.find? (fun p => p.1 = k)).map (·.2)

/-- `d[k] = v` on an association list: replace the binding if present,
else append. -/
def insertA {α : Type _} : List (String × α) → String → α → List (String × α)
  | [], k, v => [(k, v)]
  | (k', v') :: rest, k, v =>
      if k' = k then (k, v) :: rest else (k', v') :: insertA rest k v

theorem lookupA_insertA_self {α : Type _} (l : List (String × α)) (k : String) (v : α) :
    lookupA (insertA l k v) k = some v := by
  induction l with
  | nil => simp [lookupA, insertA, List.find?]
  | cons p rest ih =>
    by_cases h : p.1 = k
    · simp [insertA, h, lookupA, List.find?]
    · simp only [insertA, if_neg h]
      simpa [lookupA, List.find?, h] using ih

theorem lookupA_insertA_ne {α : Type _} (l : List (String × α)) (k k' : String) (v : α)
    (h : k' ≠ k) : lookupA (insertA l k v) k' = lookupA l k' := by
  induction l with
  | nil => simp [lookupA, insertA, List.find?, Ne.symm h]
  | cons p rest ih =>
    by_cases hp : p.1 = k
    · simp only [insertA, hp, if_pos rfl]
      simp [lookupA, List.find?, Ne.symm h, hp]
    · simp only [insertA, if_neg hp]
      by_cases hq : p.1 = k'
      · simp [lookupA, List.find?, hq]
      · simpa [lookupA, List.find?, hq] using ih

/-! ## `FaissHandler` (src/tools/faiss_utils.py)

State of one handler: the in-memory dicts `_indices` / `_corpora`, the
`_loaded_types` set, and the two per-type persisted files (index blob and
corpus blob), each of which may be absent.  The embedding model is an
oracle `embed : String → V`; a FAISS `IndexFlatL2` is modeled as the list
of vectors it holds (a fresh `IndexFlatL2(dimension)` is the empty list).
Thread locks guard only first-load and do not affect the sequential
semantics modeled here. -/

/-- Metadata dict attached to each stored item. -/
abbrev Meta := List (String × String)

structure FHState (V : Type) where
  /-- Persisted index files: `faiss_index_{t}.bin` present iff `t` is bound. -/
  diskIdx : List (String × List V)
  /-- Persisted corpus files: `faiss_corpus_{t}.pkl` present iff `t` is bound. -/
  diskCor : List (String × List (String × Meta))
  /-- `self._indices`. -/
  memIdx : List (String × List V)
  /-- `self._corpora`. -/
  memCor : List (String × List (String × Meta))
  /-- `self._loaded_types`. -/
  loaded : List String
deriving Repr

namespace FHState

/-- A freshly constructed handler over a base dir whose persisted files are
`disk` (both dicts empty, nothing loaded). -/
def fresh {V : Type} (diskIdx : List (String × List V))
    (diskCor : List (String × List (String × Meta))) : FHState V :=
  ⟨diskIdx, diskCor, [], [], []⟩

/-- `FaissHandler._ensure_loaded`: if the type is not yet loaded, read the
index file (or create an empty index) and the corpus file (or `[]`) into
the in-memory dicts and mark the type loaded. -/
def ensure_loaded {V : Type} (s : FHState V) (t : String) : FHState V :=
  if t ∈ s.loaded then s
  else
    { s with
      memIdx := insertA s.memIdx t ((lookupA s.diskIdx t).getD []),
      memCor := insertA s.memCor t ((lookupA s.diskCor t).getD []),
      loaded := t :: s.loaded }

/-- `FaissHandler.save`: ensure loaded, then write the in-memory index and
corpus for `t` to their files. -/
def save {V : Type} (s : FHState V) (t : String) : FHState V :=
  let s' := ensure_loaded s t
  { s' with
    diskIdx := insertA s'.diskIdx t ((lookupA s'.memIdx t).getD []),
    diskCor := insertA s'.diskCor t ((lookupA s'.memCor t).getD []) }

/-- `FaissHandler.add`: ensure loaded; reject blank text; otherwise embed,
append the vector to the index and `(text, meta)` to the corpus, persist,
and acknowledge. -/
def add {V : Type} (embed : String → V) (s : FHState V) (t : String)
    (text : String) (meta : Meta) : FHState V × String :=
  let s' := ensure_loaded s t
  if pyStrip text.data = [] then (s', "⚠️ Empty text, cannot embed.")
  else
    let s'' :=
      { s' with
        memIdx := insertA s'.memIdx t (((lookupA s'.memIdx t).getD []) ++ [embed text]),
        memCor := insertA s'.memCor t (((lookupA s'.memCor t).getD []) ++ [(text, meta)]) }
    (save s'' t, "✅ Stored in FAISS.")

/-- `FaissHandler.clear`: overwrite the in-memory index and corpus for `t`
with empty ones and call `save`.  Note the code does not touch
`_loaded_types` here. -/
def clear {V : Type} (s : FHState V) (t : String) : FHState V :=
  save { s with memIdx := insertA s.memIdx t [], memCor := insertA s.memCor t [] } t

/-- `FaissHandler.get_corpus`: ensure loaded, return the corpus for `t`
(together with the possibly mutated state). -/
def get_corpus {V : Type} (s : FHState V) (t : String) :
    FHState V × List (String × Meta) :=
  let s' := ensure_loaded s t
  (s', (lookupA s'.memCor t).getD [])

end FHState

/-! ### `FaissHandler.search` result assembly

FAISS's `index.search` output row `I[0]` (neighbor ids, `-1` padding when
`top_k` exceeds the number of stored vectors) and `D[0]` (distances) are an
oracle: a list of `(id, distance)` pairs.  The loop keeps a neighbor only
when `i < len(corpus)`; Python list indexing accepts negatives
(`corpus[-1]` is the last element) and raises `IndexError` (modeled as
`none`) below `-len(corpus)`. -/

/-- One search hit: `{"text": .., "meta": .., "similarity": 1 - distance}`. -/
structure SearchHit where
  text : String
  meta : Meta
  similarity : ℚ
deriving Repr, DecidableEq

/-- Python `l[i]` for a possibly negative index. -/
def pyIndex {α : Type _} (l : List α) (i : ℤ) : Option α :=
  if 0 ≤ i then l.get? i.toNat
  else if (-i) ≤ l.length then l.get? (l.length - (-i).toNat)
  else none

/-- The result loop of `FaissHandler.search` over the oracle neighbor row;
`none` models an uncaught `IndexError`. -/
def searchCore (corpus : List (String × Meta)) (filt : Option (Meta → Bool)) :
    List (ℤ × ℚ) → Option (List SearchHit)
  | [] => some []
  | (i, d) :: rest =>
    if i < (corpus.length : ℤ) then
      match pyIndex corpus i with
      | none => none
      | some (text, meta) =>
        let keep := match filt with
          | none => true
          | some fn => fn meta
        (searchCore corpus filt rest).map
          (fun rs => if keep then ⟨text, meta, 1 - d⟩ :: rs else rs)
    else searchCore corpus filt rest

/-- `FaissHandler.search`: ensure loaded; empty corpus short-circuits to
`[]`; otherwise run the result loop on the oracle neighbor row. -/
def FHState.search {V : Type} (s : FHState V) (t : String)
    (neighbors : List (ℤ × ℚ)) (filt : Option (Meta → Bool)) :
    FHState V × Option (List SearchHit) :=
  let s' := FHState.ensure_loaded s t
  let corpus := (lookupA s'.memCor t).getD []
  if corpus.isEmpty then (s', some [])
  else (s', searchCore corpus filt neighbors)

/-! ## LLM client `call_llm_api` (src/tools/llm_api.py)

The network is an oracle: attempt `k` of `requests.post` either raises
(`AttemptOutcome.exn`) or yields an `HttpResponse`.  The retry loop runs
`for attempt in range(max_retries)`, so the loop body consumes exactly one
oracle entry per attempt; we represent the oracle as a list of length
`max_retries`, which makes `attempt < max_retries - 1` the same as "the
rest of the list is nonempty".  `time.sleep` durations are recorded in a
trace; `random.uniform(0, 1)` is an oracle `jitter : Nat → ℚ`. -/

/-- What the `status_code == 200` branch observes about the body:
`response.json()` (or the subsequent `['choices'][0]['message']['content']`
access) raises, parses with no usable `choices`, or yields content. -/
inductive Body200 where
  /-- parsing raised; carries `str(e)` and `response.text`. -/
  | parseFail (errMsg rawText : String)
  /-- parsed but `'choices' not in data or not data['choices']`; carries `str(data)`. -/
  | noChoices (dataStr : String)
  /-- full extraction succeeded. -/
  | content (c : String)
deriving Repr, DecidableEq

structure HttpResponse where
  status : Nat
  /-- `response.text`. -/
  text : String
  /-- consulted only when `status = 200`. -/
  body200 : Body200
  /-- whether the 429 branch's `response.json()` / `.get` chain succeeds. -/
  errParses : Bool
  /-- the extracted `error.message` (defaulting to `""`), when it succeeds. -/
  errMessage : String
deriving Repr, DecidableEq

inductive AttemptOutcome where
  | exn (msg : String)
  | resp (r : HttpResponse)
deriving Repr, DecidableEq

/-- The non-retryable daily-quota guidance string (returned verbatim). -/
def dailyLimitMsg : String :=
  "❌ **Daily API Limit Reached** ❌\n\n" ++
  "You are using the shared free-tier API key, which has a daily usage limit.\n\n" ++
  "**To fix this, please:**\n" ++
  "1. Get your own free API key from [openrouter.ai](https://openrouter.ai/keys)\n" ++
  "2. Add it to the `.env` file in your project as `OPENROUTER_API_KEY=your_key_here`"

/-- `f"❌ {provider.capitalize()} error: {status_code} - {text}"`. -/
def providerErrMsg (provider : String) (r : HttpResponse) : String :=
  "❌ " ++ pyCapitalize provider ++ " error: " ++ natStr r.status ++ " - " ++ r.text

/-- `f"❌ Unexpected response structure: {data}"`. -/
def unexpectedStructureMsg (dataStr : String) : String :=
  "❌ Unexpected response structure: " ++ dataStr

/-- `f"❌ Failed to parse JSON: {e} | Raw: {text}"`. -/
def parseFailMsg (errMsg rawText : String) : String :=
  "❌ Failed to parse JSON: " ++ errMsg ++ " | Raw: " ++ rawText

/-- `f"❌ Request failed after {max_retries} attempts: {e}"`. -/
def requestFailedMsg (maxRetries : Nat) (e : String) : String :=
  "❌ Request failed after " ++ natStr maxRetries ++ " attempts: " ++ e

/-- `"rate limit" in error_message.lower()`. -/
def hasRateLimitMarker (msg : String) : Bool :=
  containsSub "rate limit".data (lowerL msg.data)

/-- Trace of one run of the retry loop. -/
structure LoopTrace where
  result : String
  /-- number of oracle attempts consumed (network calls made). -/
  attempts : Nat
  /-- `time.sleep` durations, in order. -/
  sleeps : List ℚ
  /-- value stored into `llm_cache` under the request key, if any. -/
  cached : Option String
deriving Repr

/-- The `for attempt in range(max_retries)` loop of `call_llm_api`.
`attempt` is the current 0-based index, the list carries the outcomes of
the remaining attempts. -/
def llmLoop (provider : String) (maxRetries : Nat) (jitter : Nat → ℚ) :
    Nat → List AttemptOutcome → LoopTrace
  | _, [] => ⟨"❌ Max retries (" ++ natStr maxRetries ++ ") exceeded", 0, [], none⟩
  | attempt, o :: rest =>
    match o with
    | .exn e =>
      if rest.isEmpty then ⟨requestFailedMsg maxRetries e, 1, [], none⟩
      else
        let t := llmLoop provider maxRetries jitter (attempt + 1) rest
        ⟨t.result, t.attempts + 1, ((2 : ℚ) ^ attempt + jitter attempt) :: t.sleeps, t.cached⟩
    | .resp r =>
      if r.status = 200 then
        match r.body200 with
        | .content c => ⟨c, 1, [], some c⟩
        | .noChoices d =>
          ⟨unexpectedStructureMsg d, 1, [], some (unexpectedStructureMsg d)⟩
        | .parseFail e raw =>
          ⟨parseFailMsg e raw, 1, [], some (parseFailMsg e raw)⟩
      else if r.status = 429 then
        if r.errParses && hasRateLimitMarker r.errMessage then
          ⟨dailyLimitMsg, 1, [], none⟩
        else if rest.isEmpty then ⟨providerErrMsg provider r, 1, [], none⟩
        else
          let t := llmLoop provider maxRetries jitter (attempt + 1) rest
          ⟨t.result, t.attempts + 1, ((2 : ℚ) ^ attempt + jitter attempt) :: t.sleeps, t.cached⟩
      else ⟨providerErrMsg provider r, 1, [], none⟩

/-- Request key of the in-memory cache: `(role, user_prompt, provider, max_tokens)`. -/
abbrev CacheKey := String × String × String × Nat

abbrev LlmCache := List (CacheKey × String)

def lookupCache (c : LlmCache) (k : CacheKey) : Option String :=
  (c.find? (fun p => p.1 = k)).map (·.2)

/-- Result of one `call_llm_api` invocation. -/
structure LlmCallResult where
  result : String
  attempts : Nat
  sleeps : List ℚ
  cache : LlmCache
deriving Repr

/-- `call_llm_api`: consult the cache first; reject unsupported providers;
otherwise run the retry loop, storing any 200-branch result (success or
sentinel) into the cache. -/
def call_llm_api (cache : LlmCache) (role userPrompt provider : String)
    (maxTokens : Nat) (outcomes : List AttemptOutcome) (jitter : Nat → ℚ) :
    LlmCallResult :=
  let key : CacheKey := (role, userPrompt, provider, maxTokens)
  match lookupCache cache key with
  | some v => ⟨v, 0, [], cache⟩
  | none =>
    if provider ≠ "openrouter" then
      ⟨"❌ Unsupported provider: " ++ provider, 0, [], cache⟩
    else
      let t := llmLoop provider outcomes.length jitter 0 outcomes
      ⟨t.result, t.attempts, t.sleeps,
        match t.cached with
        | some v => (key, v) :: cache
        | none => cache⟩

/-! ## JSON values and `json.loads` (stdlib, used by src/tools/llm_api.py)

`json.loads` is modeled by a recursive-descent parser over `List Char`.
Modeling simplifications (on branches no claim touches): numbers are
parsed as integer part plus optional decimal fraction (no exponent, no
leading-zero restriction); `\uXXXX` string escapes and the control-char
strictness check are not modeled; the `JSONDecodeError` message text is
the fixed marker `"JSONDecodeError"`. -/

inductive JVal where
  | jnull
  | jbool (b : Bool)
  | jnum (q : ℚ)
  | jstr (s : String)
  | jarr (elems : List JVal)
  | jobj (fields : List (String × JVal))

def JVal.isObj : JVal → Bool
  | .jobj _ => true
  | _ => false

def JVal.isArr : JVal → Bool
  | .jarr _ => true
  | _ => false

/-- `isinstance(v, (dict, list))`. -/
def JVal.isObjOrArr : JVal → Bool
  | .jobj _ => true
  | .jarr _ => true
  | _ => false

/-- Literal `{` (written via its code point per this file's conventions). -/
def lbrace : Char := Char.ofNat 123

/-- Literal `}`. -/
def rbrace : Char := Char.ofNat 125

/-- JSON insignificant whitespace. -/
def jsonWs (c : Char) : Bool := c = ' ' || c = '\t' || c = '\n' || c = '\r'

def skipWs (l : List Char) : List Char := l.dropWhile jsonWs

/-- JSON string escapes (short forms only). -/
def escChar : Char → Option Char
  | '"' => some '"'
  | '\\' => some '\\'
  | '/' => some '/'
  | 'b' => some (Char.ofNat 8)
  | 'f' => some (Char.ofNat 12)
  | 'n' => some '\n'
  | 'r' => some '\r'
  | 't' => some '\t'
  | _ => none

/-- Body of a JSON string after the opening quote: returns the decoded
content and the characters after the closing quote. -/
def parseStrBody : List Char → Option (List Char × List Char)
  | [] => none
  | '\\' :: e :: rest =>
    match escChar e with
    | some c => (parseStrBody rest).map (fun p => (c :: p.1, p.2))
    | none => none
  | c :: rest =>
    if c = '"' then some ([], rest)
    else (parseStrBody rest).map (fun p => (c :: p.1, p.2))

def digitsToNat (ds : List Char) : Nat :=
  ds.foldl (fun n c => 10 * n + (c.toNat - 48)) 0

/-- A JSON number (integer part, optional fraction). -/
def parseNum (l : List Char) : Option (ℚ × List Char) :=
  let (neg, l1) := match l with
    | '-' :: r => (true, r)
    | _ => (false, l)
  let (ds, l2) := l1.span Char.isDigit
  if ds.isEmpty then none
  else
    let ip : ℚ := (digitsToNat ds : ℚ)
    match l2 with
    | '.' :: l3 =>
      let (fs, l4) := l3.span Char.isDigit
      if fs.isEmpty then none
      else
        let q := ip + (digitsToNat fs : ℚ) / ((10 : ℚ) ^ fs.length)
        some ((if neg then -q else q), l4)
    | _ => some ((if neg then -ip else ip), l2)

/-- Parser tasks: a value, the elements of an array (positioned at the
start of the next element), the members of an object (positioned at the
start of the next key). -/
inductive PTask where
  | val
  | arrRest
  | objRest

inductive PRes where
  | v (x : JVal)
  | vs (xs : List JVal)
  | ms (fields : List (String × JVal))

/-- Fueled recursive-descent JSON parser (single function so that it is
structurally recursive on the fuel and reduces in the kernel). -/
def parseF : Nat → PTask → List Char → Option (PRes × List Char)
  | 0, _, _ => none
  | fuel + 1, .val, l =>
    match skipWs l with
    | [] => none
    | c :: r =>
      if c = lbrace then
        match skipWs r with
        | c' :: r' =>
          if c' = rbrace then some (.v (.jobj []), r')
          else
            match parseF fuel .objRest (c' :: r') with
            | some (.ms fields, rest) => some (.v (.jobj fields), rest)
            | _ => none
        | [] => none
      else if c = '[' then
        match skipWs r with
        | ']' :: r' => some (.v (.jarr []), r')
        | l' =>
          match parseF fuel .arrRest l' with
          | some (.vs xs, rest) => some (.v (.jarr xs), rest)
          | _ => none
      else if c = '"' then
        (parseStrBody r).map (fun p => (.v (.jstr ⟨p.1⟩), p.2))
      else if "true".data.isPrefixOf (c :: r) then
        some (.v (.jbool true), (c :: r).drop 4)
      else if "false".data.isPrefixOf (c :: r) then
        some (.v (.jbool false), (c :: r).drop 5)
      else if "null".data.isPrefixOf (c :: r) then
        some (.v .jnull, (c :: r).drop 4)
      else
        (parseNum (c :: r)).map (fun p => (.v (.jnum p.1), p.2))
  | fuel + 1, .arrRest, l =>
    match parseF fuel .val l with
    | some (.v x, rest) =>
      (match skipWs rest with
        | ',' :: r =>
          match parseF fuel .arrRest r with
          | some (.vs xs, rest') => some (.vs (x :: xs), rest')
          | _ => none
        | ']' :: r => some (.vs [x], r)
        | _ => none)
    | _ => none
  | fuel + 1, .objRest, l =>
    match skipWs l with
    | '"' :: r =>
      match parseStrBody r with
      | some (k, rest) =>
        (match skipWs rest with
          | ':' :: r2 =>
            (match parseF fuel .val r2 with
              | some (.v x, rest2) =>
                (match skipWs rest2 with
                  | ',' :: r3 =>
                    match parseF fuel .objRest r3 with
                    | some (.ms fields, rest3) => some (.ms ((⟨k⟩, x) :: fields), rest3)
                    | _ => none
                  | c3 :: r3 =>
                    if c3 = rbrace then some (.ms [(⟨k⟩, x)], r3) else none
                  | _ => none)
              | _ => none)
          | _ => none)
      | none => none
    | _ => none

/-- `json.loads`: parse one value and require only whitespace after it. -/
def jsonLoads (l : List Char) : Option JVal :=
  match parseF (2 * l.length + 2) .val l with
  | some (.v x, rest) => if (skipWs rest).isEmpty then some x else none
  | _ => none

/-! ## `call_llm_api_json` (src/tools/llm_api.py, lines 117–192) -/

/-- Python `str.find(c)` (`none` for `-1`). -/
def pyFind (l : List Char) (c : Char) : Option Nat := l.findIdx? (· = c)

/-- Python `str.rfind(c)` (`none` for `-1`). -/
def pyRFind (l : List Char) (c : Char) : Option Nat :=
  (l.reverse.findIdx? (· = c)).map (fun i => l.length - 1 - i)

/-- Python `s[start:stop]` for nonnegative bounds. -/
def pySlice (l : List Char) (start stop : Nat) : List Char :=
  (l.take stop).drop start

/-- Lines 145–153: `json_start` and the matching closer — the candidate
starts at the first `{` or `[` (whichever occurs first); `none` when the
text has neither. -/
def jsonStart (stripped : List Char) : Option (Nat × Char) :=
  match pyFind stripped lbrace, pyFind stripped '[' with
  | some b, some k => if b < k then some (b, rbrace) else some (k, ']')
  | some b, none => some (b, rbrace)
  | none, some k => some (k, ']')
  | none, none => none

/-- Lines 145–163: select `json_str` from the stripped response text — the
candidate runs from `json_start` to just after the last occurrence of the
corresponding closer (`rfind`, so a missing closer gives `json_end = 0`
and an empty slice); with no opener at all the whole stripped text is the
candidate. -/
def jsonSliceOf (stripped : List Char) : List Char :=
  match jsonStart stripped with
  | some (st, endc) =>
    let e := match pyRFind stripped endc with
      | some j => j + 1
      | none => 0
    pySlice stripped st e
  | none => stripped

/-- The error dicts built by `call_llm_api_json` (fields in insertion order). -/
def errorDict (err raw : String) (perr : Option String) : JVal :=
  .jobj ([("error", .jstr err), ("raw_response", .jstr raw)] ++
    (match perr with
      | some p => [("parsing_error", .jstr p)]
      | none => []))

/-- Python `str(v)` for the scalar values that can reach the
"Invalid JSON type" branch.  A non-integer number is rendered as
`num/den` (Python would use the float repr; no claim concerns it). -/
def pyStr : JVal → String
  | .jnull => "None"
  | .jbool true => "True"
  | .jbool false => "False"
  | .jstr s => s
  | .jnum q =>
    if q.den = 1 then
      (if q.num < 0 then "-" ++ natStr q.num.natAbs else natStr q.num.natAbs)
    else
      (if q.num < 0 then "-" ++ natStr q.num.natAbs else natStr q.num.natAbs) ++
        "/" ++ natStr q.den
  | .jarr _ => ""
  | .jobj _ => ""

/-- The response-normalization stage of `call_llm_api_json` (lines
134–192), applied to the string returned by `call_llm_api`: error-prefixed
sentinel strings become an error dict; otherwise the candidate slice of
the stripped text is parsed, objects and arrays are returned as parsed,
and everything else becomes an error dict.  The function is total: no
exception escapes. -/
def call_llm_api_json_of (responseText : String) : JVal :=
  let l := responseText.data
  if "❌".data.isPrefixOf l || "⚠️".data.isPrefixOf l then
    errorDict "LLM API call failed" responseText none
  else
    let stripped := pyStrip l
    let js := jsonSliceOf stripped
    match jsonLoads js with
    | some v =>
      if v.isObjOrArr then v
      else errorDict "Invalid JSON type" (pyStr v)
        (some "LLM did not return a JSON object or array as requested.")
    | none => errorDict "JSON parsing failed" ⟨stripped⟩ (some "JSONDecodeError")

/-- The prompt suffix added by `call_llm_api_json` before delegating. -/
def enhancedPrompt (userPrompt : String) : String :=
  userPrompt ++
  "\n\nIMPORTANT: Respond with valid JSON only. Do not include any text before or after the JSON object or array."

/-- `call_llm_api_json`: delegate to `call_llm_api` with the enhanced
prompt, then normalize the response. -/
def call_llm_api_json (cache : LlmCache) (role userPrompt provider : String)
    (maxTokens : Nat) (outcomes : List AttemptOutcome) (jitter : Nat → ℚ) :
    JVal × LlmCallResult :=
  let r := call_llm_api cache role (enhancedPrompt userPrompt) provider maxTokens outcomes jitter
  (call_llm_api_json_of r.result, r)

/-! ## `analyze_course_relevance` (src/tools/course_fetcher.py, lines 123–228)

The LLM analysis of one course is an oracle: either the `JVal` that
`call_llm_api_json` returned, or an exception raised somewhere inside the
`try` block (e.g. while building the prompt from a malformed skill list).
Python's `"error" in analysis` sees the error dicts of
`call_llm_api_json` as ordinary dicts with an `"error"` key. -/

inductive AnalyzerOutcome where
  | result (v : JVal)
  | raised (e : String)

/-- `d.get(k, default)` on a `JVal` object's fields. -/
def jGet (fields : List (String × JVal)) (k : String) (dflt : JVal) : JVal :=
  (lookupA fields k).getD dflt

/-- `"error" in analysis`. -/
def hasErrorKey (fields : List (String × JVal)) : Bool :=
  (lookupA fields "error").isSome

/-- The non-dict-course default (`relevance_score: 0`). -/
def invalidCourseRec : JVal :=
  .jobj [("relevance_score", .jnum 0), ("skill_gaps_covered", .jarr []),
    ("learning_level", .jstr "Unknown"), ("career_impact", .jstr "Unknown"),
    ("recommendation", .jstr "Not Recommended"),
    ("reasoning", .jstr "Invalid course data format")]

/-- The safe default for a failed analysis (`relevance_score: 1`). -/
def analysisFailedRec : JVal :=
  .jobj [("relevance_score", .jnum 1), ("skill_gaps_covered", .jarr []),
    ("learning_level", .jstr "Unknown"), ("career_impact", .jstr "Moderate"),
    ("recommendation", .jstr "Consider"),
    ("reasoning", .jstr "Analysis failed or was unavailable.")]

/-- The default for an analysis of an invalid shape (`relevance_score: 1`). -/
def invalidFormatRec : JVal :=
  .jobj [("relevance_score", .jnum 1), ("skill_gaps_covered", .jarr []),
    ("learning_level", .jstr "Unknown"), ("career_impact", .jstr "Moderate"),
    ("recommendation", .jstr "Consider"),
    ("reasoning", .jstr "Analysis returned an invalid format.")]

/-- The default produced by the outer `except` (`relevance_score: 1`,
reasoning `f"Analysis error: {e}"`). -/
def analysisExnRec (e : String) : JVal :=
  .jobj [("relevance_score", .jnum 1), ("skill_gaps_covered", .jarr []),
    ("learning_level", .jstr "Unknown"), ("career_impact", .jstr "Moderate"),
    ("recommendation", .jstr "Consider"),
    ("reasoning", .jstr ("Analysis error: " ++ e))]

/-- `analyze_course_relevance`: reject non-dict course data; convert an
exception to the default record; normalize the LLM's JSON reply — error
dict ⟶ safe default, non-empty array ⟶ its first element, still not a
dict ⟶ invalid-format default, otherwise the parsed dict verbatim. -/
def analyze_course_relevance (courseData : JVal) (o : AnalyzerOutcome) : JVal :=
  if ¬ courseData.isObj then invalidCourseRec
  else
    match o with
    | .raised e => analysisExnRec e
    | .result analysis =>
      match analysis with
      | .jobj fields =>
        if hasErrorKey fields then analysisFailedRec else .jobj fields
      | .jarr (x :: _) =>
        match x with
        | .jobj fields' => .jobj fields'
        | _ => invalidFormatRec
      | _ => invalidFormatRec

/-! ## `rank_and_filter_courses` (src/tools/course_fetcher.py, lines 230–269)

Input: the candidate course dicts, each paired with the oracle outcome of
its LLM analysis.  `relevance_score` is read from the analysis with
default `5`; a non-numeric score makes the later `>=`/sort comparisons
raise `TypeError`, which the outer `except` turns into `[]`.  Python
`bool` participates in numeric comparison as `0`/`1`. -/

structure Ranked where
  /-- the original course dict (the `{**course, ...}` spread). -/
  course : JVal
  /-- the `"analysis"` entry. -/
  analysis : JVal
  /-- the `"relevance_score"` entry. -/
  score : ℚ

/-- The numeric value of `analysis.get("relevance_score", 5)`, `none` when
the comparisons would raise `TypeError`. -/
def scoreOf (analysis : JVal) : Option ℚ :=
  match analysis with
  | .jobj fields =>
    match jGet fields "relevance_score" (.jnum 5) with
    | .jnum q => some q
    | .jbool b => some (if b then 1 else 0)
    | _ => none
  | _ => none

/-- The analysis loop: skip non-dict courses, attach analysis and score;
`none` models the `TypeError` path. -/
def buildAnalyzed : List (JVal × AnalyzerOutcome) → Option (List Ranked)
  | [] => some []
  | (c, o) :: rest =>
    if c.isObj then
      let a := analyze_course_relevance c o
      match scoreOf a with
      | some q => (buildAnalyzed rest).map (fun l => ⟨c, a, q⟩ :: l)
      | none => none
    else buildAnalyzed rest

/-- `sorted(key=relevance_score, reverse=True)` order: `a` may precede `b`
iff `b`'s score does not exceed `a`'s (equal keys keep list order, which
is what Python's stable sort with `reverse=True` does). -/
def rankDescend (a b : Ranked) : Bool := decide (b.score ≤ a.score)

/-- `rank_and_filter_courses`: analyze, sort descending by score, drop
scores `< 5`, truncate to `max_results`; any ranking failure yields `[]`. -/
def rank_and_filter_courses (items : List (JVal × AnalyzerOutcome))
    (maxResults : Nat) : List Ranked :=
  match buildAnalyzed items with
  | none => []
  | some analyzed =>
    ((analyzed.mergeSort rankDescend).filter (fun c => decide (5 ≤ c.score))).take maxResults

/-! ## `clean_llm_output` (src/tools/pipeline.py, lines 14–40) -/

/-- Python `str.replace(pat, rep)` made kernel-reducible by fueling the
left-to-right non-overlapping scan (all patterns used here are nonempty,
and one unit of fuel is spent per consumed character, so `l.length` fuel
always suffices). -/
def replaceFuel (pat rep : List Char) : Nat → List Char → List Char
  | 0, l => l
  | _ + 1, [] => []
  | f + 1, c :: rest =>
    if pat.isPrefixOf (c :: rest) then
      rep ++ replaceFuel pat rep f (rest.drop (pat.length - 1))
    else c :: replaceFuel pat rep f rest

def pyReplace (l pat rep : List Char) : List Char := replaceFuel pat rep l.length l

/-- `re.sub(r"\n\x7b3,\x7d", "\n\n", ..)`: keep at most the first two
newlines of every run (`run` counts newlines kept in the current run). -/
def collapseNL (run : Nat) : List Char → List Char
  | [] => []
  | c :: rest =>
    if c = '\n' then
      if run ≥ 2 then collapseNL run rest
      else '\n' :: collapseNL (run + 1) rest
    else c :: collapseNL 0 rest

/-- `re.sub(r" +", " ", ..)`: collapse every run of spaces to one
(`prevSpace` records whether the previous character was a kept space). -/
def collapseSpaces (prevSpace : Bool) : List Char → List Char
  | [] => []
  | c :: rest =>
    if c = ' ' then
      if prevSpace then collapseSpaces true rest
      else ' ' :: collapseSpaces true rest
    else c :: collapseSpaces false rest

/-- `clean_llm_output`: the replace chain, newline collapsing, the second
(no-op after the first pass) escape replacements, space collapsing, strip.
An empty (falsy) input is returned unchanged. -/
def clean_llm_output (text : String) : String :=
  if text.data.isEmpty then text
  else
    let t1 := pyReplace text.data "\\n".data "\n".data
    let t2 := pyReplace t1 "\\t".data "\t".data
    let t3 := pyReplace t2 "\\r".data "\r".data
    let t4 := pyReplace t3 "\t+".data "- ".data
    let t5 := pyReplace t4 "\t-".data "- ".data
    let t6 := pyReplace t5 "\t*".data "- ".data
    let t7 := collapseNL 0 t6
    let t8 := pyReplace t7 "\\n".data " ".data
    let t9 := pyReplace t8 "\\t".data " ".data
    let t10 := collapseSpaces false t9
    ⟨pyStrip t10⟩

/-! ## `enhance_resume` (src/tools/pipeline.py, lines 159–185) and the
fallback wrappers (src/crew/tools.py)

`CoreInfo` carries the values that `enhance_resume` reads off the
`extract_resume_core_info` dict via `.get` with defaults (that extractor
catches its own parse failures and always returns a dict).  The remote
and local LLMs are oracles; a Python call either returns a string or
raises (`PyOutcome`).  `call_local_llm_api` itself is not part of the
analyzed sources; only its outcome enters here, through the oracle. -/

structure CoreInfo where
  headline : String
  summary : String
  skills : List String
  jobTitle : String

def joinComma (skills : List String) : String := String.intercalate ", " skills

/-- The `enhancement_prompt` f-string. -/
def enhancementPrompt (resumeText : String) (ci : CoreInfo) : String :=
  "Act as a professional resume editor. Rewrite and enhance the following resume to target the job role of '" ++
  ci.jobTitle ++ "'.\n\n" ++
  "**Instructions:**\n" ++
  "1. **Integrate Headline & Summary:** Start with this professional headline: " ++
  ci.headline ++ " and summary: " ++ ci.summary ++ ".\n" ++
  "2. **Inject Skills:** Seamlessly incorporate these key skills: " ++
  joinComma ci.skills ++ ".\n" ++
  "3. **Full Rewrite:** Rewrite the entire resume, not just parts of it. Ensure all original sections (Experience, Education, etc.) are present and improved.\n" ++
  "4. **Professional Tone:** Use action verbs and quantifiable achievements.\n" ++
  "5. **Formatting:** Use clean markdown with clear headers (e.g., `## Experience`) and bullet points (`-`). Do not use any escape characters like \\n.\n\n" ++
  "**Original Resume to Enhance:**\n" ++ resumeText ++ "\n\n" ++
  "**Return the complete, enhanced resume.**"

/-- `enhance_resume`: one LLM completion over the enhancement prompt
(the return value of `call_llm_api` is returned unchanged, sentinel
failure strings included). -/
def enhance_resume (llm : String → String → Nat → String)
    (resumeText : String) (ci : CoreInfo) : String :=
  llm "You are a professional resume editor." (enhancementPrompt resumeText ci) 1500

/-- Outcome of one Python call: a returned string or a raised exception. -/
inductive PyOutcome where
  | ok (s : String)
  | raised (e : String)

/-- `handle_llm_fallback` (src/crew/tools.py, lines 20–36): try the local
LLM; pass its reply through unless it is `"❌"`-prefixed; degrade to the
service-unavailable messages otherwise. -/
def handle_llm_fallback (localLlm : String → String → Nat → PyOutcome)
    (role prompt : String) (maxTokens : Nat) : String :=
  match localLlm role prompt maxTokens with
  | .ok s =>
    if "❌".data.isPrefixOf s.data then
      "⚠️ Service temporarily unavailable. Please try again later. (Local fallback failed: " ++ s ++ ")"
    else s
  | .raised _ => "⚠️ Service temporarily unavailable. Please try again later."

/-- The operation-specific fallback prompt of `clean_enhance_resume`. -/
def enhanceFallbackPrompt (resumeText targetJobRole : String) : String :=
  "Enhance this resume for the role of " ++ targetJobRole ++
  ". Add a professional summary and improve formatting:\n\n" ++ resumeText

/-- `clean_enhance_resume` (src/crew/tools.py, lines 71–80): clean and
return the primary result; only a raised exception reaches the `except`
branch that calls the local fallback with the enhancement fallback
prompt. -/
def clean_enhance_resume (primary : PyOutcome)
    (localLlm : String → String → Nat → PyOutcome)
    (resumeText targetJobRole : String) : String :=
  match primary with
  | .ok result => clean_llm_output result
  | .raised _ =>
    handle_llm_fallback localLlm "You are a professional resume editor."
      (enhanceFallbackPrompt resumeText targetJobRole) 1200

/-! ## Theorems: Embedding/Index Store invariants (C1, C4, C9) -/

/-- The in-memory `(index, corpus)` pair for a content type (a missing
dict entry reads as the empty pair; the code never reads one without
`_ensure_loaded` having bound it). -/
def memPair {V : Type} (s : FHState V) (t : String) :
    List V × List (String × Meta) :=
  ((lookupA s.memIdx t).getD [], (lookupA s.memCor t).getD [])

/-- The persisted `(index, corpus)` pair for a content type. -/
def diskPair {V : Type} (s : FHState V) (t : String) :
    List V × List (String × Meta) :=
  ((lookupA s.diskIdx t).getD [], (lookupA s.diskCor t).getD [])

/-- Positional correspondence: vector `i` of the index is the embedding of
the text at position `i` of the corpus (hence equal lengths). -/
def CorrPair {V : Type} (embed : String → V)
    (p : List V × List (String × Meta)) : Prop :=
  p.1 = p.2.map (fun q => embed q.1)

/-- Equal lengths of index and corpus. -/
def pairLenEq {V : Type} (p : List V × List (String × Meta)) : Prop :=
  p.1.length = p.2.length

/-- The store invariant: every content type's in-memory pair and persisted
pair are positionally corresponding. -/
def CorrInv {V : Type} (embed : String → V) (s : FHState V) : Prop :=
  ∀ t, CorrPair embed (memPair s t) ∧ CorrPair embed (diskPair s t)

/-- The length form of the invariant (the spec's `len(index) == len(corpus)`). -/
def StateLenInv {V : Type} (s : FHState V) : Prop :=
  ∀ t, pairLenEq (memPair s t) ∧ pairLenEq (diskPair s t)

theorem CorrPair.lenEq {V : Type} {embed : String → V}
    {p : List V × List (String × Meta)} (h : CorrPair embed p) : pairLenEq p := by
  unfold CorrPair at h
  unfold pairLenEq
  rw [h, List.length_map]

theorem CorrInv.lenInv {V : Type} {embed : String → V} {s : FHState V}
    (h : CorrInv embed s) : StateLenInv s :=
  fun t => ⟨(h t).1.lenEq, (h t).2.lenEq⟩

namespace FHState

theorem ensure_loaded_of_mem {V : Type} {s : FHState V} {t : String}
    (h : t ∈ s.loaded) : ensure_loaded s t = s := by
  simp [ensure_loaded, h]

theorem mem_loaded_ensure_loaded {V : Type} (s : FHState V) (t : String) :
    t ∈ (ensure_loaded s t).loaded := by
  by_cases h : t ∈ s.loaded <;> simp [ensure_loaded, h]

theorem memPair_ensure_loaded {V : Type} (s : FHState V) (t t' : String) :
    memPair (ensure_loaded s t) t' =
      if t ∉ s.loaded ∧ t' = t then diskPair s t else memPair s t' := by
  by_cases h : t ∈ s.loaded
  · simp [ensure_loaded, h]
  · by_cases h' : t' = t
    · subst h'
      simp [ensure_loaded, h, memPair, diskPair, lookupA_insertA_self]
    · simp [ensure_loaded, h, memPair, h', lookupA_insertA_ne _ _ _ _ h']

theorem diskIdx_ensure_loaded {V : Type} (s : FHState V) (t : String) :
    (ensure_loaded s t).diskIdx = s.diskIdx := by
  by_cases h : t ∈ s.loaded <;> simp [ensure_loaded, h]

theorem diskCor_ensure_loaded {V : Type} (s : FHState V) (t : String) :
    (ensure_loaded s t).diskCor = s.diskCor := by
  by_cases h : t ∈ s.loaded <;> simp [ensure_loaded, h]

theorem diskPair_ensure_loaded {V : Type} (s : FHState V) (t t' : String) :
    diskPair (ensure_loaded s t) t' = diskPair s t' := by
  simp [diskPair, diskIdx_ensure_loaded, diskCor_ensure_loaded]

theorem memPair_save {V : Type} (s : FHState V) (t t' : String) :
    memPair (save s t) t' = memPair (ensure_loaded s t) t' := by
  simp [save, memPair]

theorem diskPair_save {V : Type} (s : FHState V) (t t' : String) :
    diskPair (save s t) t' =
      if t' = t then memPair (ensure_loaded s t) t else diskPair s t' := by
  by_cases h : t' = t
  · subst h
    simp [save, diskPair, memPair, lookupA_insertA_self]
  · simp [save, diskPair, memPair, h, lookupA_insertA_ne _ _ _ _ h,
      diskIdx_ensure_loaded, diskCor_ensure_loaded]

end FHState

theorem CorrInv.ensure_loaded {V : Type} {embed : String → V} {s : FHState V}
    (h : CorrInv embed s) (t : String) : CorrInv embed (FHState.ensure_loaded s t) := by
  intro t'
  rw [FHState.memPair_ensure_loaded, FHState.diskPair_ensure_loaded]
  by_cases c : t ∉ s.loaded ∧ t' = t
  · rw [if_pos c]
    exact ⟨(h t).2, (h t').2⟩
  · rw [if_neg c]
    exact h t'

theorem CorrInv.save {V : Type} {embed : String → V} {s : FHState V}
    (h : CorrInv embed s) (t : String) : CorrInv embed (FHState.save s t) := by
  intro t'
  rw [FHState.memPair_save, FHState.diskPair_save]
  refine ⟨(h.ensure_loaded t t').1, ?_⟩
  by_cases c : t' = t
  · rw [if_pos c]
    exact (h.ensure_loaded t t).1
  · rw [if_neg c]
    exact (h t').2

theorem CorrInv.add {V : Type} {embed : String → V} {s : FHState V}
    (h : CorrInv embed s) (t text : String) (meta : Meta) :
    CorrInv embed (FHState.add embed s t text meta).1 := by
  by_cases hb : pyStrip text.data = []
  · simpa [FHState.add, hb] using h.ensure_loaded t
  · have hs' := h.ensure_loaded t
    simp only [FHState.add, hb, if_neg, ite_false]
    apply CorrInv.save
    intro t'
    constructor
    · by_cases ht : t' = t
      · subst ht
        have hc := (hs' t').1
        simp only [CorrPair, memPair] at hc ⊢
        simp only [lookupA_insertA_self, Option.getD_some]
        rw [List.map_append]
        rw [hc]
        simp
      · have hc := (hs' t').1
        simpa [memPair, lookupA_insertA_ne _ _ _ _ ht] using hc
    · simpa [diskPair] using (hs' t').2

theorem CorrInv.clear {V : Type} {embed : String → V} {s : FHState V}
    (h : CorrInv embed s) (t : String) : CorrInv embed (FHState.clear s t) := by
  unfold FHState.clear
  apply CorrInv.save
  intro t'
  by_cases ht : t' = t
  · subst ht
    constructor
    · simp [memPair, lookupA_insertA_self, CorrPair]
    · simpa [diskPair] using (h t').2
  · constructor
    · simpa [memPair, lookupA_insertA_ne _ _ _ _ ht] using (h t').1
    · simpa [diskPair] using (h t').2

theorem FHState.add_of_blank {V : Type} (embed : String → V) (s : FHState V)
    (t text : String) (meta : Meta) (hb : pyStrip text.data = []) :
    FHState.add embed s t text meta = (FHState.ensure_loaded s t, "⚠️ Empty text, cannot embed.") := by
  simp [FHState.add, hb]

theorem FHState.memPair_add {V : Type} (embed : String → V) (s : FHState V)
    (t text : String) (meta : Meta) (hb : pyStrip text.data ≠ []) :
    memPair (FHState.add embed s t text meta).1 t =
      ((memPair (FHState.ensure_loaded s t) t).1 ++ [embed text],
       (memPair (FHState.ensure_loaded s t) t).2 ++ [(text, meta)]) := by
  simp only [FHState.add, hb, if_neg, ite_false]
  rw [FHState.memPair_save]
  rw [FHState.ensure_loaded_of_mem (by simpa using FHState.mem_loaded_ensure_loaded s t)]
  simp [memPair, lookupA_insertA_self]

/-- **C1** — For every content type, after every successful or failed `add`
and after every `clear`, the vector index and the metadata corpus stay
positionally parallel (so `len(index) == len(corpus)`), and a successful
insertion extends both together: the new vector is appended at the same
position as the new `(text, meta)` corpus entry, while a failed (blank
text) `add` mutates nothing beyond lazy loading. -/
theorem c1_add_clear_keep_index_corpus_parallel
    (V : Type) (embed : String → V) (s : FHState V)
    (t text : String) (meta : Meta) (hinv : CorrInv embed s) :
    CorrInv embed (FHState.add embed s t text meta).1 ∧
    StateLenInv (FHState.add embed s t text meta).1 ∧
    CorrInv embed (FHState.clear s t) ∧
    StateLenInv (FHState.clear s t) ∧
    (pyStrip text.data ≠ [] →
      memPair (FHState.add embed s t text meta).1 t =
        ((memPair (FHState.ensure_loaded s t) t).1 ++ [embed text],
         (memPair (FHState.ensure_loaded s t) t).2 ++ [(text, meta)])) ∧
    (pyStrip text.data = [] →
      (FHState.add embed s t text meta).1 = FHState.ensure_loaded s t) :=
  ⟨hinv.add t text meta, (hinv.add t text meta).lenInv,
   hinv.clear t, (hinv.clear t).lenInv,
   fun hb => FHState.memPair_add embed s t text meta hb,
   fun hb => by rw [FHState.add_of_blank embed s t text meta hb]⟩

theorem c1_add_clear_keep_index_corpus_parallel_witness :
    CorrInv (fun _ => (0 : Nat)) (FHState.add (fun _ => 0) (FHState.fresh [] [] : FHState Nat) "resume" "hello" []).1 ∧
    StateLenInv (FHState.add (fun _ => (0 : Nat)) (FHState.fresh [] [] : FHState Nat) "resume" "hello" []).1 ∧
    CorrInv (fun _ => (0 : Nat)) (FHState.clear (FHState.fresh [] [] : FHState Nat) "resume") ∧
    StateLenInv (FHState.clear (FHState.fresh [] [] : FHState Nat) "resume") ∧
    memPair (FHState.add (fun _ => (0 : Nat)) (FHState.fresh [] [] : FHState Nat) "resume" "hello" []).1 "resume" =
      ((memPair (FHState.ensure_loaded (FHState.fresh [] [] : FHState Nat) "resume") "resume").1 ++ [0],
       (memPair (FHState.ensure_loaded (FHState.fresh [] [] : FHState Nat) "resume") "resume").2 ++ [("hello", [])]) := by
  have h := c1_add_clear_keep_index_corpus_parallel Nat (fun _ => 0)
    (FHState.fresh [] []) "resume" "hello" [] (fun t => ⟨rfl, rfl⟩)
  exact ⟨h.1, h.2.1, h.2.2.1, h.2.2.2.1, h.2.2.2.2.1 (by decide)⟩

/-- **C4** — Counter-evidence to "clear twice always leaves the corpus
empty after each call, persisted immediately": on a freshly constructed
handler over pre-existing persisted files, `clear` assigns empty
structures but does not mark the type loaded, so `save`'s
`_ensure_loaded` reloads the old disk data over them and re-persists it;
`get_corpus` after the first `clear` still returns the old corpus, and
only the second `clear` (now on a loaded type) actually empties it. -/
theorem c4_clear_on_fresh_handler_restores_disk_state :
    ((FHState.get_corpus (FHState.clear
        (FHState.fresh [("course", [(7 : Nat)])] [("course", [("stale", [("k", "v")])])])
        "course") "course").2 = [("stale", [("k", "v")])]) ∧
    ((FHState.get_corpus (FHState.clear
        (FHState.fresh [("course", [(7 : Nat)])] [("course", [("stale", [("k", "v")])])])
        "course") "course").2 ≠ []) ∧
    ((FHState.get_corpus (FHState.clear (FHState.clear
        (FHState.fresh [("course", [(7 : Nat)])] [("course", [("stale", [("k", "v")])])])
        "course") "course") "course").2 = []) :=
  ⟨rfl, by decide, rfl⟩

theorem pyIndex_neg_one {α : Type _} (l : List α) (h : l ≠ []) :
    pyIndex l (-1) = some (l.getLast h) := by
  unfold pyIndex
  have hlen : 0 < l.length := List.length_pos.mpr h
  rw [if_neg (by omega), if_pos (by simpa using hlen)]
  have hlt : l.length - 1 < l.length := by omega
  rw [show ((-(-1 : ℤ)).toNat) = 1 by rfl]
  rw [List.get?_eq_get hlt]
  congr 1
  exact (List.getLast_eq_getElem l h).symm

theorem pyIndex_isSome {α : Type _} (l : List α) (hl : l ≠ []) (i : ℤ)
    (h1 : -1 ≤ i) (h2 : i < l.length) : (pyIndex l i).isSome := by
  by_cases h0 : 0 ≤ i
  · unfold pyIndex
    rw [if_pos h0]
    have ht : i.toNat < l.length := by omega
    rw [List.get?_eq_get ht]
    rfl
  · have : i = -1 := by omega
    subst this
    rw [pyIndex_neg_one l hl]
    rfl

/-- **C9** — The `i < len(corpus)` guard in `FaissHandler.search` skips any
neighbor id at or beyond the corpus length, and every neighbor id in
`\x7b-1\x7d ∪ [0, len)` resolves without an out-of-bounds access; but the FAISS
padding id `-1` is not excluded: it resolves (by Python negative indexing)
to the **last** corpus element, contributing it with similarity `1 - d`
instead of being skipped. -/
theorem c9_search_guard_keeps_neg_one_padding :
    (∀ (corpus : List (String × Meta)) (filt : Option (Meta → Bool)) (i : ℤ) (d : ℚ)
        (rest : List (ℤ × ℚ)), (corpus.length : ℤ) ≤ i →
        searchCore corpus filt ((i, d) :: rest) = searchCore corpus filt rest) ∧
    (∀ (corpus : List (String × Meta)) (filt : Option (Meta → Bool)) (nb : List (ℤ × ℚ)),
        corpus ≠ [] → (∀ p ∈ nb, (-1 : ℤ) ≤ p.1) → (searchCore corpus filt nb).isSome) ∧
    (∀ (corpus : List (String × Meta)) (h : corpus ≠ []) (d : ℚ) (rest : List (ℤ × ℚ)),
        searchCore corpus none ((-1, d) :: rest) =
          (searchCore corpus none rest).map
            (fun rs => ⟨(corpus.getLast h).1, (corpus.getLast h).2, 1 - d⟩ :: rs)) := by
  refine ⟨?_, ?_, ?_⟩
  · intro corpus filt i d rest h
    rw [searchCore, if_neg (not_lt.mpr h)]
  · intro corpus filt nb hc hnb
    induction nb with
    | nil => simp [searchCore]
    | cons p rest ih =>
      obtain ⟨i, d⟩ := p
      rw [searchCore]
      by_cases hi : i < (corpus.length : ℤ)
      · rw [if_pos hi]
        have hs := pyIndex_isSome corpus hc i (hnb (i, d) (by simp)) hi
        obtain ⟨⟨text, meta⟩, hp⟩ := Option.isSome_iff_exists.mp hs
        rw [hp]
        have := ih (fun p hp' => hnb p (List.mem_cons_of_mem _ hp'))
        obtain ⟨rs, hrs⟩ := Option.isSome_iff_exists.mp this
        simp [hrs]
      · rw [if_neg hi]
        exact ih (fun p hp' => hnb p (List.mem_cons_of_mem _ hp'))
  · intro corpus h d rest
    have hlen : 0 < corpus.length := List.length_pos.mpr h
    rw [searchCore, if_pos (by omega : (-1 : ℤ) < (corpus.length : ℤ)),
      pyIndex_neg_one corpus h]
    rfl

theorem c9_search_guard_keeps_neg_one_padding_witness :
    (searchCore [("a", ([] : Meta)), ("b", [])] none [((5 : ℤ), (1 : ℚ)), ((-1 : ℤ), (0 : ℚ))]).isSome ∧
    searchCore [("a", ([] : Meta)), ("b", [])] none [((-1 : ℤ), (0 : ℚ))] =
      some [⟨"b", [], 1 - 0⟩] := by
  constructor
  · exact c9_search_guard_keeps_neg_one_padding.2.1 [("a", []), ("b", [])] none
      [(5, 1), (-1, 0)] (by decide) (by decide)
  · rw [c9_search_guard_keeps_neg_one_padding.2.2 [("a", []), ("b", [])] (by decide) 0 []]
    rfl

/-! ## Theorems: LLM client retry/caching (C2, C7, C10) -/

theorem llmLoop_exn_cons (p : String) (mr : Nat) (j : Nat → ℚ) (a : Nat)
    (e : String) (rest : List AttemptOutcome) :
    llmLoop p mr j a (.exn e :: rest) =
      if rest.isEmpty then ⟨requestFailedMsg mr e, 1, [], none⟩
      else
        ⟨(llmLoop p mr j (a + 1) rest).result,
         (llmLoop p mr j (a + 1) rest).attempts + 1,
         ((2 : ℚ) ^ a + j a) :: (llmLoop p mr j (a + 1) rest).sleeps,
         (llmLoop p mr j (a + 1) rest).cached⟩ := rfl

theorem llmLoop_resp_cons (p : String) (mr : Nat) (j : Nat → ℚ) (a : Nat)
    (r : HttpResponse) (rest : List AttemptOutcome) :
    llmLoop p mr j a (.resp r :: rest) =
      if r.status = 200 then
        match r.body200 with
        | .content c => ⟨c, 1, [], some c⟩
        | .noChoices d =>
          ⟨unexpectedStructureMsg d, 1, [], some (unexpectedStructureMsg d)⟩
        | .parseFail e raw =>
          ⟨parseFailMsg e raw, 1, [], some (parseFailMsg e raw)⟩
      else if r.status = 429 then
        if r.errParses && hasRateLimitMarker r.errMessage then
          ⟨dailyLimitMsg, 1, [], none⟩
        else if rest.isEmpty then ⟨providerErrMsg p r, 1, [], none⟩
        else
          ⟨(llmLoop p mr j (a + 1) rest).result,
           (llmLoop p mr j (a + 1) rest).attempts + 1,
           ((2 : ℚ) ^ a + j a) :: (llmLoop p mr j (a + 1) rest).sleeps,
           (llmLoop p mr j (a + 1) rest).cached⟩
      else ⟨providerErrMsg p r, 1, [], none⟩ := rfl

theorem llmLoop_all_exn (provider : String) (maxRetries : Nat) (jitter : Nat → ℚ)
    (msgs : List String) (hne : msgs ≠ []) (a : Nat) :
    (llmLoop provider maxRetries jitter a (msgs.map AttemptOutcome.exn)).result
        = requestFailedMsg maxRetries (msgs.getLast hne) ∧
    (llmLoop provider maxRetries jitter a (msgs.map AttemptOutcome.exn)).attempts
        = msgs.length ∧
    (llmLoop provider maxRetries jitter a (msgs.map AttemptOutcome.exn)).sleeps
        = (List.range' a (msgs.length - 1)).map (fun i => (2 : ℚ) ^ i + jitter i) := by
  induction msgs generalizing a with
  | nil => exact absurd rfl hne
  | cons e rest ih =>
    cases rest with
    | nil => simp [llmLoop_exn_cons]
    | cons m tail =>
      have hne' : m :: tail ≠ [] := by simp
      have h := ih hne' (a + 1)
      rw [List.map_cons, llmLoop_exn_cons]
      rw [show ((m :: tail).map AttemptOutcome.exn).isEmpty = false by simp]
      simp only [Bool.false_eq_true, if_false]
      refine ⟨?_, ?_, ?_⟩
      · rw [h.1, List.getLast_cons hne']
      · rw [h.2.1]
        simp
      · rw [h.2.2]
        have hl : (e :: m :: tail).length - 1 = tail.length + 1 := by simp
        rw [hl, List.range'_succ]
        simp

theorem llmLoop_all_soft429 (provider : String) (maxRetries : Nat) (jitter : Nat → ℚ)
    (rs : List HttpResponse) (hne : rs ≠ [])
    (hall : ∀ r ∈ rs, r.status = 429 ∧
      ¬(r.errParses = true ∧ hasRateLimitMarker r.errMessage = true)) (a : Nat) :
    (llmLoop provider maxRetries jitter a (rs.map AttemptOutcome.resp)).result
        = providerErrMsg provider (rs.getLast hne) ∧
    (llmLoop provider maxRetries jitter a (rs.map AttemptOutcome.resp)).attempts
        = rs.length ∧
    (llmLoop provider maxRetries jitter a (rs.map AttemptOutcome.resp)).sleeps
        = (List.range' a (rs.length - 1)).map (fun i => (2 : ℚ) ^ i + jitter i) := by
  induction rs generalizing a with
  | nil => exact absurd rfl hne
  | cons r rest ih =>
    obtain ⟨h429, hnm⟩ := hall r (by simp)
    have hmark : (r.errParses && hasRateLimitMarker r.errMessage) = false := by
      rcases hp : r.errParses with _ | _
      · simp
      · rcases hm : hasRateLimitMarker r.errMessage with _ | _
        · simp
        · exact absurd ⟨hp, hm⟩ hnm
    have hs200 : ¬(r.status = 200) := by omega
    rw [List.map_cons, llmLoop_resp_cons, if_neg hs200, if_pos h429, hmark]
    simp only [Bool.false_eq_true, if_false]
    cases rest with
    | nil => simp
    | cons m tail =>
      have hne' : m :: tail ≠ [] := by simp
      have h := ih hne' (fun x hx => hall x (List.mem_cons_of_mem _ hx)) (a + 1)
      rw [show ((m :: tail).map AttemptOutcome.resp).isEmpty = false by simp]
      simp only [Bool.false_eq_true, if_false]
      refine ⟨?_, ?_, ?_⟩
      · rw [h.1, List.getLast_cons hne']
      · rw [h.2.1]
        simp
      · rw [h.2.2]
        have hl : (r :: m :: tail).length - 1 = tail.length + 1 := by simp
        rw [hl, List.range'_succ]
        simp

/-- **C2 (counterexample)** — A single 500 response terminates `call_llm_api`
on the first attempt: one network call, no backoff sleep, the sentinel
provider-error string returned — even though the very next attempt would
have succeeded.  This refutes "any non-2xx HTTP response is retried … in
particular a 5xx response does not terminate the call on the first
attempt". -/
theorem c2_500_terminates_first_attempt :
    (llmLoop "openrouter" 2 (fun _ => (1 : ℚ) / 2) 0
        [.resp ⟨500, "oops", .parseFail "e" "oops", false, ""⟩,
         .resp ⟨200, "", .content "recovered", false, ""⟩]).attempts = 1 ∧
    (llmLoop "openrouter" 2 (fun _ => (1 : ℚ) / 2) 0
        [.resp ⟨500, "oops", .parseFail "e" "oops", false, ""⟩,
         .resp ⟨200, "", .content "recovered", false, ""⟩]).sleeps = [] ∧
    (llmLoop "openrouter" 2 (fun _ => (1 : ℚ) / 2) 0
        [.resp ⟨500, "oops", .parseFail "e" "oops", false, ""⟩,
         .resp ⟨200, "", .content "recovered", false, ""⟩]).result
      = providerErrMsg "openrouter" ⟨500, "oops", .parseFail "e" "oops", false, ""⟩ ∧
    (llmLoop "openrouter" 2 (fun _ => (1 : ℚ) / 2) 0
        [.resp ⟨500, "oops", .parseFail "e" "oops", false, ""⟩,
         .resp ⟨200, "", .content "recovered", false, ""⟩]).result ≠ "recovered" :=
  ⟨rfl, rfl, rfl, by decide⟩

/-- **C2 (amended)** — Transport errors are retried up to the attempt bound
with exponential backoff (`2^attempt`) plus the jitter drawn from `[0,1)`,
the exhausted loop returning the sentinel request-failure string; but only
transport errors and non-quota 429s retry: any other non-2xx response
(e.g. a 5xx) returns its sentinel provider-error string immediately on the
attempt where it occurs, with no sleep. -/
theorem c2_retry_scope_transport_and_429_only
    (provider : String) (maxRetries : Nat) (jitter : Nat → ℚ)
    (hj : ∀ n, 0 ≤ jitter n ∧ jitter n < 1) :
    (∀ (msgs : List String) (hne : msgs ≠ []),
      (llmLoop provider maxRetries jitter 0 (msgs.map AttemptOutcome.exn)).result
          = requestFailedMsg maxRetries (msgs.getLast hne) ∧
      (llmLoop provider maxRetries jitter 0 (msgs.map AttemptOutcome.exn)).attempts
          = msgs.length ∧
      (llmLoop provider maxRetries jitter 0 (msgs.map AttemptOutcome.exn)).sleeps
          = (List.range' 0 (msgs.length - 1)).map (fun i => (2 : ℚ) ^ i + jitter i)) ∧
    (∀ n, (2 : ℚ) ^ n ≤ (2 : ℚ) ^ n + jitter n ∧ (2 : ℚ) ^ n + jitter n < 2 ^ n + 1) ∧
    (∀ (r : HttpResponse) (rest : List AttemptOutcome) (a : Nat),
      r.status ≠ 200 → r.status ≠ 429 →
      llmLoop provider maxRetries jitter a (.resp r :: rest)
        = ⟨providerErrMsg provider r, 1, [], none⟩) := by
  refine ⟨fun msgs hne => llmLoop_all_exn provider maxRetries jitter msgs hne 0,
    fun n => ⟨by linarith [(hj n).1], by linarith [(hj n).2]⟩,
    fun r rest a h200 h429 => ?_⟩
  rw [llmLoop_resp_cons, if_neg h200, if_neg h429]

theorem c2_retry_scope_transport_and_429_only_witness :
    (0 : ℚ) ≤ (0 : ℚ) ∧
    ((llmLoop "openrouter" 3 (fun _ => 0) 0
        ((["boom1", "boom2", "boom3"]).map AttemptOutcome.exn)).result
      = requestFailedMsg 3 "boom3" ∧
    (llmLoop "openrouter" 3 (fun _ => 0) 0
        ((["boom1", "boom2", "boom3"]).map AttemptOutcome.exn)).attempts = 3 ∧
    (llmLoop "openrouter" 3 (fun _ => 0) 0
        ((["boom1", "boom2", "boom3"]).map AttemptOutcome.exn)).sleeps
      = (List.range' 0 2).map (fun i => (2 : ℚ) ^ i + (fun _ => (0 : ℚ)) i)) ∧
    llmLoop "openrouter" 3 (fun _ => 0) 0
        [.resp ⟨503, "down", .parseFail "e" "down", false, ""⟩]
      = ⟨providerErrMsg "openrouter" ⟨503, "down", .parseFail "e" "down", false, ""⟩, 1, [], none⟩ := by
  have h := c2_retry_scope_transport_and_429_only "openrouter" 3 (fun _ => 0)
    (fun n => ⟨le_refl 0, zero_lt_one⟩)
  refine ⟨le_refl 0, ?_, ?_⟩
  · have := h.1 ["boom1", "boom2", "boom3"] (by decide)
    exact ⟨this.1, this.2.1, this.2.2⟩
  · exact h.2.2 ⟨503, "down", .parseFail "e" "down", false, ""⟩ [] 0 (by decide) (by decide)

/-- **C7** — A 429 whose parsed `error.message` contains `"rate limit"`
(case-insensitively) makes `call_llm_api` return the daily-limit guidance
string on that very attempt: one network call, no sleep, no further
retries and nothing cached; a 429 whose body fails to parse or whose
message lacks the marker is retried with `2^attempt`-plus-jitter backoff
until the attempt bound, then surfaces the provider-error sentinel. -/
theorem c7_quota_429_short_circuits_other_429_retry
    (provider : String) (maxRetries : Nat) (jitter : Nat → ℚ) :
    (∀ (r : HttpResponse) (rest : List AttemptOutcome) (a : Nat),
      r.status = 429 → r.errParses = true → hasRateLimitMarker r.errMessage = true →
      llmLoop provider maxRetries jitter a (.resp r :: rest)
        = ⟨dailyLimitMsg, 1, [], none⟩) ∧
    (∀ (rs : List HttpResponse) (hne : rs ≠ []),
      (∀ r ∈ rs, r.status = 429 ∧
        ¬(r.errParses = true ∧ hasRateLimitMarker r.errMessage = true)) →
      (llmLoop provider maxRetries jitter 0 (rs.map AttemptOutcome.resp)).result
          = providerErrMsg provider (rs.getLast hne) ∧
      (llmLoop provider maxRetries jitter 0 (rs.map AttemptOutcome.resp)).attempts
          = rs.length ∧
      (llmLoop provider maxRetries jitter 0 (rs.map AttemptOutcome.resp)).sleeps
          = (List.range' 0 (rs.length - 1)).map (fun i => (2 : ℚ) ^ i + jitter i)) := by
  constructor
  · intro r rest a h429 hp hm
    have hs200 : ¬(r.status = 200) := by omega
    rw [llmLoop_resp_cons, if_neg hs200, if_pos h429, hp, hm]
    rfl
  · intro rs hne hall
    exact llmLoop_all_soft429 provider maxRetries jitter rs hne hall 0

theorem c7_quota_429_short_circuits_other_429_retry_witness :
    llmLoop "openrouter" 3 (fun _ => 0) 0
        [.resp ⟨429, "limited", .parseFail "" "", true, "Rate limit exceeded: free tier daily quota"⟩,
         .resp ⟨200, "", .content "later", false, ""⟩,
         .resp ⟨200, "", .content "later", false, ""⟩]
      = ⟨dailyLimitMsg, 1, [], none⟩ ∧
    (llmLoop "openrouter" 2 (fun _ => 0) 0
        (([⟨429, "slow down", .parseFail "" "", false, ""⟩,
           ⟨429, "slow down", .parseFail "" "", false, ""⟩] :
            List HttpResponse).map AttemptOutcome.resp)).attempts = 2 := by
  constructor
  · exact c7_quota_429_short_circuits_other_429_retry "openrouter" 3 (fun _ => 0) |>.1
      ⟨429, "limited", .parseFail "" "", true, "Rate limit exceeded: free tier daily quota"⟩
      [.resp ⟨200, "", .content "later", false, ""⟩, .resp ⟨200, "", .content "later", false, ""⟩]
      0 rfl rfl (by decide)
  · exact (c7_quota_429_short_circuits_other_429_retry "openrouter" 2 (fun _ => 0) |>.2
      [⟨429, "slow down", .parseFail "" "", false, ""⟩,
       ⟨429, "slow down", .parseFail "" "", false, ""⟩] (by decide)
      (by decide)).2.1

theorem lookupCache_cons_self (c : LlmCache) (k : CacheKey) (v : String) :
    lookupCache ((k, v) :: c) k = some v := by
  simp [lookupCache, List.find?]

/-- **C10** — A 200-status reply whose body yields a sentinel failure
string (missing/empty `choices`, or a parse failure while reading the
body) is stored in the in-memory cache under the request key, exactly like
a success; every later `call_llm_api` with the identical
`(role, prompt, provider, max_tokens)` key therefore returns that failure
string immediately — zero network attempts, zero sleeps — for the process
lifetime.  (A plain cache hit returns the cached value and leaves the
cache unchanged.) -/
theorem c10_200_sentinel_strings_are_cached
    (role prompt : String) (maxTokens : Nat) (jitter jitter2 : Nat → ℚ) :
    (∀ (cache : LlmCache) (v : String) (outcomes : List AttemptOutcome),
      lookupCache cache (role, prompt, "openrouter", maxTokens) = some v →
      call_llm_api cache role prompt "openrouter" maxTokens outcomes jitter
        = ⟨v, 0, [], cache⟩) ∧
    (∀ (cache : LlmCache) (r : HttpResponse) (d : String)
        (rest outcomes2 : List AttemptOutcome),
      lookupCache cache (role, prompt, "openrouter", maxTokens) = none →
      r.status = 200 → r.body200 = .noChoices d →
      (call_llm_api cache role prompt "openrouter" maxTokens (.resp r :: rest) jitter).result
          = unexpectedStructureMsg d ∧
      (call_llm_api cache role prompt "openrouter" maxTokens (.resp r :: rest) jitter).attempts = 1 ∧
      call_llm_api
          (call_llm_api cache role prompt "openrouter" maxTokens (.resp r :: rest) jitter).cache
          role prompt "openrouter" maxTokens outcomes2 jitter2
        = ⟨unexpectedStructureMsg d, 0, [],
           (call_llm_api cache role prompt "openrouter" maxTokens (.resp r :: rest) jitter).cache⟩) ∧
    (∀ (cache : LlmCache) (r : HttpResponse) (e raw : String)
        (rest outcomes2 : List AttemptOutcome),
      lookupCache cache (role, prompt, "openrouter", maxTokens) = none →
      r.status = 200 → r.body200 = .parseFail e raw →
      (call_llm_api cache role prompt "openrouter" maxTokens (.resp r :: rest) jitter).result
          = parseFailMsg e raw ∧
      call_llm_api
          (call_llm_api cache role prompt "openrouter" maxTokens (.resp r :: rest) jitter).cache
          role prompt "openrouter" maxTokens outcomes2 jitter2
        = ⟨parseFailMsg e raw, 0, [],
           (call_llm_api cache role prompt "openrouter" maxTokens (.resp r :: rest) jitter).cache⟩) := by
  have hcall : ∀ (cache : LlmCache) (v : String) (outcomes : List AttemptOutcome) (jf : Nat → ℚ),
      lookupCache cache (role, prompt, "openrouter", maxTokens) = some v →
      call_llm_api cache role prompt "openrouter" maxTokens outcomes jf = ⟨v, 0, [], cache⟩ := by
    intro cache v outcomes jf h
    unfold call_llm_api
    dsimp only
    rw [h]
  refine ⟨fun cache v outcomes h => hcall cache v outcomes jitter h, ?_, ?_⟩
  · intro cache r d rest outcomes2 hmiss h200 hbody
    have hfirst : call_llm_api cache role prompt "openrouter" maxTokens (.resp r :: rest) jitter
        = ⟨unexpectedStructureMsg d, 1, [],
           ((role, prompt, "openrouter", maxTokens), unexpectedStructureMsg d) :: cache⟩ := by
      unfold call_llm_api
      dsimp only
      rw [hmiss]
      rw [llmLoop_resp_cons, if_pos h200, hbody]
      rfl
    refine ⟨by rw [hfirst], by rw [hfirst], ?_⟩
    rw [hfirst]
    exact hcall _ _ _ jitter2 (lookupCache_cons_self cache _ _)
  · intro cache r e raw rest outcomes2 hmiss h200 hbody
    have hfirst : call_llm_api cache role prompt "openrouter" maxTokens (.resp r :: rest) jitter
        = ⟨parseFailMsg e raw, 1, [],
           ((role, prompt, "openrouter", maxTokens), parseFailMsg e raw) :: cache⟩ := by
      unfold call_llm_api
      dsimp only
      rw [hmiss]
      rw [llmLoop_resp_cons, if_pos h200, hbody]
      rfl
    refine ⟨by rw [hfirst], ?_⟩
    rw [hfirst]
    exact hcall _ _ _ jitter2 (lookupCache_cons_self cache _ _)

theorem c10_200_sentinel_strings_are_cached_witness :
    (call_llm_api [] "sys" "hi" "openrouter" 700
        [.resp ⟨200, "\x7b\x7d", .noChoices "\x7b\x7d", false, ""⟩] (fun _ => 0)).result
      = unexpectedStructureMsg "\x7b\x7d" ∧
    call_llm_api
        (call_llm_api [] "sys" "hi" "openrouter" 700
          [.resp ⟨200, "\x7b\x7d", .noChoices "\x7b\x7d", false, ""⟩] (fun _ => 0)).cache
        "sys" "hi" "openrouter" 700
        [.resp ⟨200, "", .content "fresh", false, ""⟩] (fun _ => 0)
      = ⟨unexpectedStructureMsg "\x7b\x7d", 0, [],
         (call_llm_api [] "sys" "hi" "openrouter" 700
           [.resp ⟨200, "\x7b\x7d", .noChoices "\x7b\x7d", false, ""⟩] (fun _ => 0)).cache⟩ := by
  have h := (c10_200_sentinel_strings_are_cached "sys" "hi" 700 (fun _ => 0) (fun _ => 0)).2.1
    [] ⟨200, "\x7b\x7d", .noChoices "\x7b\x7d", false, ""⟩ "\x7b\x7d"
    [] [.resp ⟨200, "", .content "fresh", false, ""⟩] rfl rfl rfl
  exact ⟨h.1, h.2.2⟩

/-! ## Theorems: structured-JSON extraction (C6) -/

/-- The spec's wording for the candidate start: the first character that
is `{` or `[`. -/
def specCandStart (l : List Char) : Option Nat :=
  l.findIdx? (fun c => c = lbrace || c = '[')

theorem jsonStart_fst_eq_specCandStart (l : List Char) :
    (jsonStart l).map Prod.fst = specCandStart l := by
  have e1 : (lbrace = '[') = False := by simp [lbrace, Char.ofNat]
  have e2 : ('[' = lbrace) = False := by simp [lbrace, Char.ofNat]
  induction l with
  | nil => rfl
  | cons c rest ih =>
    unfold jsonStart pyFind specCandStart at *
    rw [List.findIdx?_cons, List.findIdx?_cons, List.findIdx?_cons,
      List.findIdx?_succ, List.findIdx?_succ, List.findIdx?_succ]
    by_cases hb : c = lbrace
    · subst hb
      simp only [e1, decide_eq_true_eq, if_pos rfl, decide_False, Bool.false_eq_true,
        if_false, if_true]
      cases hkopt : List.findIdx? (fun x => decide (x = '[')) rest <;> simp [e1]
    · by_cases hk : c = '['
      · subst hk
        simp only [e2, decide_eq_true_eq, if_pos rfl, decide_False, Bool.false_eq_true,
          if_false, if_true]
        cases hbopt : List.findIdx? (fun x => decide (x = lbrace)) rest <;> simp [e2]
      · simp only [hb, hk, decide_False, Bool.false_eq_true, if_false, decide_eq_true_eq,
          Bool.or_self, Bool.false_or]
        cases h1 : List.findIdx? (fun x => decide (x = lbrace)) rest <;>
          cases h2 : List.findIdx? (fun x => decide (x = '[')) rest <;>
            rw [h1, h2] at ih <;> rw [← ih]
        · rfl
        · rfl
        · rfl
        · rename_i b k
          dsimp only [Option.map_some']
          by_cases hbk : b < k
          · rw [if_pos hbk, if_pos (by omega : b + 1 < k + 1)]
            rfl
          · rw [if_neg hbk, if_neg (by omega : ¬(b + 1 < k + 1))]
            rfl

theorem call_llm_api_json_of_shape (s : String) :
    (call_llm_api_json_of s).isObjOrArr = true := by
  unfold call_llm_api_json_of
  dsimp only
  split
  · simp [errorDict, JVal.isObjOrArr]
  · split
    · split
      · assumption
      · simp [errorDict, JVal.isObjOrArr]
    · simp [errorDict, JVal.isObjOrArr]

theorem jsonSliceOf_of_no_opener (l : List Char) (h : specCandStart l = none) :
    jsonSliceOf l = l := by
  have hmap := jsonStart_fst_eq_specCandStart l
  rw [h] at hmap
  unfold jsonSliceOf
  rw [Option.map_eq_none'.mp hmap]

/-- **C6** — `call_llm_api_json` extracts JSON from the raw model reply as
claimed: the candidate starts at the first `{` or `[` (whichever occurs
first) and ends after the closer found by scanning from the end (`rfind`);
with no opener the whole stripped text is parsed; a parse failure or a
parsed non-object/non-array value yields an error record
(`error` / `raw_response` / `parsing_error` fields) rather than an
exception — the result is always a dict or list value; and the raw reply
`"Sure! ```json\n\x7b"relevance_score":8\x7d\n```"` parses to the object
`\x7b"relevance_score": 8\x7d`. -/
theorem c6_json_extraction_behavior :
    call_llm_api_json_of "Sure! ```json\n\x7b\"relevance_score\":8\x7d\n```"
        = .jobj [("relevance_score", .jnum 8)] ∧
    (∀ s : String, (call_llm_api_json_of s).isObjOrArr = true) ∧
    (∀ l : List Char, (jsonStart l).map Prod.fst = specCandStart l) ∧
    (∀ l : List Char, specCandStart l = none → jsonSliceOf l = l) ∧
    (∀ (s : String) (v : JVal),
      ("❌".data.isPrefixOf s.data || "⚠️".data.isPrefixOf s.data) = false →
      jsonLoads (jsonSliceOf (pyStrip s.data)) = some v → v.isObjOrArr = false →
      call_llm_api_json_of s = errorDict "Invalid JSON type" (pyStr v)
        (some "LLM did not return a JSON object or array as requested.")) ∧
    (∀ s : String,
      ("❌".data.isPrefixOf s.data || "⚠️".data.isPrefixOf s.data) = false →
      jsonLoads (jsonSliceOf (pyStrip s.data)) = none →
      call_llm_api_json_of s = errorDict "JSON parsing failed" ⟨pyStrip s.data⟩
        (some "JSONDecodeError")) := by
  refine ⟨rfl, call_llm_api_json_of_shape, jsonStart_fst_eq_specCandStart,
    jsonSliceOf_of_no_opener, ?_, ?_⟩
  · intro s v hpre hp hv
    unfold call_llm_api_json_of
    dsimp only
    rw [hpre]
    simp only [Bool.false_eq_true, if_false]
    rw [hp]
    simp only [hv, Bool.false_eq_true, if_false]
  · intro s hpre hp
    unfold call_llm_api_json_of
    dsimp only
    rw [hpre]
    simp only [Bool.false_eq_true, if_false]
    rw [hp]

theorem c6_json_extraction_behavior_witness :
    jsonSliceOf "not json at all".data = "not json at all".data ∧
    call_llm_api_json_of "ok" = errorDict "JSON parsing failed" ⟨pyStrip "ok".data⟩
        (some "JSONDecodeError") ∧
    call_llm_api_json_of "\"just a string\"" = errorDict "Invalid JSON type"
        (pyStr (.jstr "just a string"))
        (some "LLM did not return a JSON object or array as requested.") := by
  refine ⟨?_, ?_, ?_⟩
  · exact c6_json_extraction_behavior.2.2.2.1 "not json at all".data (by decide)
  · exact c6_json_extraction_behavior.2.2.2.2.2 "ok" (by decide) rfl
  · exact c6_json_extraction_behavior.2.2.2.2.1 "\"just a string\"" (.jstr "just a string")
      (by decide) rfl rfl

/-! ## Theorems: Relevance Analyzer normalization (C8) -/

/-- **C8** — `analyze_course_relevance` never propagates an exception and
normalizes the client reply exactly as specified: a reply dict carrying an
`"error"` key (the client's error records) gives the safe default with
score 1 and reasoning "Analysis failed or was unavailable."; a non-empty
array is replaced by its first element (a dict first element is returned
as-is, a non-dict one gives the invalid-format default with score 1); any
other non-dict value gives the invalid-format default; an error-free dict
is returned verbatim; and a raised exception is converted to the
default-shaped record with score 1. -/
theorem c8_analyzer_normalizes_llm_reply (course : JVal) (hc : course.isObj = true) :
    (∀ fields, hasErrorKey fields = true →
      analyze_course_relevance course (.result (.jobj fields)) = analysisFailedRec) ∧
    (∀ fields, hasErrorKey fields = false →
      analyze_course_relevance course (.result (.jobj fields)) = .jobj fields) ∧
    (∀ (x : JVal) (xs : List JVal) fields, x = .jobj fields →
      analyze_course_relevance course (.result (.jarr (x :: xs))) = .jobj fields) ∧
    (∀ (x : JVal) (xs : List JVal), x.isObj = false →
      analyze_course_relevance course (.result (.jarr (x :: xs))) = invalidFormatRec) ∧
    (∀ v : JVal, v.isObj = false → v.isArr = false →
      analyze_course_relevance course (.result v) = invalidFormatRec) ∧
    (analyze_course_relevance course (.result (.jarr [])) = invalidFormatRec) ∧
    (∀ e, analyze_course_relevance course (.raised e) = analysisExnRec e) ∧
    scoreOf analysisFailedRec = some 1 ∧
    scoreOf invalidFormatRec = some 1 ∧
    (∀ e, scoreOf (analysisExnRec e) = some 1) := by
  refine ⟨?_, ?_, ?_, ?_, ?_, ?_, ?_, rfl, rfl, fun e => rfl⟩
  · intro fields hf
    unfold analyze_course_relevance
    rw [if_neg (not_not_intro hc)]
    simp only [if_false, hf, if_true]
  · intro fields hf
    unfold analyze_course_relevance
    rw [if_neg (not_not_intro hc)]
    simp only [if_false, hf, Bool.false_eq_true, if_false]
  · intro x xs fields hx
    subst hx
    unfold analyze_course_relevance
    rw [if_neg (not_not_intro hc)]
  · intro x xs hx
    unfold analyze_course_relevance
    rw [if_neg (not_not_intro hc)]
    simp only [if_false]
    cases x <;> simp_all [JVal.isObj]
  · intro v hv1 hv2
    unfold analyze_course_relevance
    rw [if_neg (not_not_intro hc)]
    simp only [if_false]
    cases v <;> simp_all [JVal.isObj, JVal.isArr]
  · unfold analyze_course_relevance
    rw [if_neg (not_not_intro hc)]
  · intro e
    unfold analyze_course_relevance
    rw [if_neg (not_not_intro hc)]

theorem c8_analyzer_normalizes_llm_reply_witness :
    analyze_course_relevance (.jobj [("title", .jstr "Intro to ML")])
        (.result (.jarr [.jobj [("relevance_score", .jnum 7)]]))
      = .jobj [("relevance_score", .jnum 7)] ∧
    analyze_course_relevance (.jobj [("title", .jstr "Intro to ML")])
        (.result (errorDict "LLM API call failed" "❌ Max retries (3) exceeded" none))
      = analysisFailedRec ∧
    analyze_course_relevance (.jobj [("title", .jstr "Intro to ML")])
        (.raised "TypeError") = analysisExnRec "TypeError" := by
  have h := c8_analyzer_normalizes_llm_reply (.jobj [("title", .jstr "Intro to ML")]) rfl
  refine ⟨?_, ?_, h.2.2.2.2.2.2.1 "TypeError"⟩
  · exact h.2.2.1 (.jobj [("relevance_score", .jnum 7)]) [] [("relevance_score", .jnum 7)] rfl
  · exact h.1 [("error", .jstr "LLM API call failed"),
      ("raw_response", .jstr "❌ Max retries (3) exceeded")] rfl

/-! ## Theorems: Ranker/Filter (C5) -/

theorem rankDescend_trans : ∀ (a b c : Ranked),
    rankDescend a b → rankDescend b c → rankDescend a c := by
  intro a b c hab hbc
  simp only [rankDescend, decide_eq_true_eq] at *
  exact le_trans hbc hab

theorem rankDescend_total : ∀ (a b : Ranked),
    rankDescend a b || rankDescend b a := by
  intro a b
  simp only [rankDescend]
  rcases le_total a.score b.score with h | h
  · simp [h]
  · simp [h]

/-- **C5** — `rank_and_filter_courses` keeps no item below score 5 (an
analysis with no `relevance_score` key reads as the default 5, which
passes the filter), returns at most `max_results` items sorted
non-increasingly by score, returns `[]` (not an error) on empty input,
and its output is an order-preserving selection from the stable
descending sort of the analyzed candidates — so candidates with equal
scores keep their original relative order. -/
theorem c5_ranker_threshold_order_truncation :
    (∀ (items : List (JVal × AnalyzerOutcome)) (maxResults : Nat) (x : Ranked),
      x ∈ rank_and_filter_courses items maxResults → 5 ≤ x.score) ∧
    (∀ (items : List (JVal × AnalyzerOutcome)) (maxResults : Nat),
      (rank_and_filter_courses items maxResults).length ≤ maxResults) ∧
    (∀ (items : List (JVal × AnalyzerOutcome)) (maxResults : Nat),
      (rank_and_filter_courses items maxResults).Pairwise
        (fun a b => b.score ≤ a.score)) ∧
    (∀ maxResults : Nat, rank_and_filter_courses [] maxResults = []) ∧
    (∀ (items : List (JVal × AnalyzerOutcome)) (maxResults : Nat)
        (analyzed : List Ranked), buildAnalyzed items = some analyzed →
      List.Sublist (rank_and_filter_courses items maxResults)
        (analyzed.mergeSort rankDescend) ∧
      (∀ x y : Ranked, x.score = y.score → List.Sublist [x, y] analyzed →
        List.Sublist [x, y] (analyzed.mergeSort rankDescend))) ∧
    (∀ fields, lookupA fields "relevance_score" = none →
      scoreOf (.jobj fields) = some 5) ∧
    (∀ (analyzed : List Ranked) (x : Ranked), x ∈ analyzed.mergeSort rankDescend →
      x.score = 5 →
      x ∈ (analyzed.mergeSort rankDescend).filter (fun c => decide (5 ≤ c.score))) := by
  refine ⟨?_, ?_, ?_, ?_, ?_, ?_, ?_⟩
  · intro items maxResults x hx
    unfold rank_and_filter_courses at hx
    cases hb : buildAnalyzed items with
    | none => rw [hb] at hx; simp at hx
    | some analyzed =>
      rw [hb] at hx
      have hx' := List.take_subset _ _ hx
      exact of_decide_eq_true (List.mem_filter.mp hx').2
  · intro items maxResults
    unfold rank_and_filter_courses
    cases hb : buildAnalyzed items with
    | none => simp
    | some analyzed =>
      rw [List.length_take]
      exact min_le_left _ _
  · intro items maxResults
    unfold rank_and_filter_courses
    cases hb : buildAnalyzed items with
    | none => simp
    | some analyzed =>
      have hsorted := @List.sorted_mergeSort Ranked rankDescend
        rankDescend_trans rankDescend_total analyzed
      have hsub : List.Sublist (((analyzed.mergeSort rankDescend).filter
          (fun c => decide (5 ≤ c.score))).take maxResults)
          (analyzed.mergeSort rankDescend) :=
        (List.take_sublist _ _).trans (List.filter_sublist _)
      exact (hsorted.sublist hsub).imp (fun h => of_decide_eq_true h)
  · intro maxResults
    simp [rank_and_filter_courses, buildAnalyzed]
  · intro items maxResults analyzed hb
    constructor
    · unfold rank_and_filter_courses
      rw [hb]
      exact (List.take_sublist _ _).trans (List.filter_sublist _)
    · intro x y hxy hsub
      exact List.pair_sublist_mergeSort rankDescend_trans rankDescend_total
        (by simp only [rankDescend]; exact decide_eq_true (le_of_eq hxy.symm)) hsub
  · intro fields h
    simp [scoreOf, jGet, h]
  · intro analyzed x hx hs
    refine List.mem_filter.mpr ⟨hx, ?_⟩
    rw [hs]
    exact decide_eq_true (le_refl (5 : ℚ))

theorem c5_ranker_threshold_order_truncation_witness :
    rank_and_filter_courses [] 5 = [] ∧
    scoreOf (.jobj []) = some 5 ∧
    buildAnalyzed
        [(.jobj [], .result (.jobj [("relevance_score", .jnum 7), ("tag", .jstr "a")])),
         (.jobj [], .result (.jobj [("relevance_score", .jnum 7), ("tag", .jstr "b")]))]
      = some
        [⟨.jobj [], .jobj [("relevance_score", .jnum 7), ("tag", .jstr "a")], 7⟩,
         ⟨.jobj [], .jobj [("relevance_score", .jnum 7), ("tag", .jstr "b")], 7⟩] ∧
    List.Sublist
      [(⟨.jobj [], .jobj [("relevance_score", .jnum 7), ("tag", .jstr "a")], 7⟩ : Ranked),
     ⟨.jobj [], .jobj [("relevance_score", .jnum 7), ("tag", .jstr "b")], 7⟩]
      (([⟨.jobj [], .jobj [("relevance_score", .jnum 7), ("tag", .jstr "a")], 7⟩,
         ⟨.jobj [], .jobj [("relevance_score", .jnum 7), ("tag", .jstr "b")], 7⟩] :
          List Ranked).mergeSort rankDescend) := by
  refine ⟨c5_ranker_threshold_order_truncation.2.2.2.1 5,
    c5_ranker_threshold_order_truncation.2.2.2.2.2.1 [] rfl, rfl, ?_⟩
  exact (c5_ranker_threshold_order_truncation.2.2.2.2.1
    [(.jobj [], .result (.jobj [("relevance_score", .jnum 7), ("tag", .jstr "a")])),
     (.jobj [], .result (.jobj [("relevance_score", .jnum 7), ("tag", .jstr "b")]))] 5
    [⟨.jobj [], .jobj [("relevance_score", .jnum 7), ("tag", .jstr "a")], 7⟩,
     ⟨.jobj [], .jobj [("relevance_score", .jnum 7), ("tag", .jstr "b")], 7⟩] rfl).2
    _ _ rfl (List.Sublist.refl _)

/-! ## Theorems: Fallback Coordinator (C3) -/

/-- **C3 (counterexample)** — An LLM client forced to fail on every
primary-path call makes `enhance_resume` return the sentinel failure
string (no exception is raised), and `clean_enhance_resume` then cleans
and returns that sentinel as-is: the output carries the `❌` failure
marker and is not the local fallback's reply, even though the fallback
LLM would have succeeded.  This refutes "a sentinel failure string from
the LLM client triggers the local fallback" and the scenario's
"returns a non-empty string containing no failure marker". -/
theorem c3_sentinel_failure_skips_fallback :
    clean_enhance_resume
        (.ok (enhance_resume (fun _ _ _ => requestFailedMsg 3 "boom")
          "John Doe resume text" ⟨"", "", [], ""⟩))
        (fun _ _ _ => .ok "Enhanced resume text.") "John Doe resume text" "Data Scientist"
      = requestFailedMsg 3 "boom" ∧
    "❌".data.isPrefixOf (clean_enhance_resume
        (.ok (enhance_resume (fun _ _ _ => requestFailedMsg 3 "boom")
          "John Doe resume text" ⟨"", "", [], ""⟩))
        (fun _ _ _ => .ok "Enhanced resume text.") "John Doe resume text"
        "Data Scientist").data = true ∧
    clean_enhance_resume
        (.ok (enhance_resume (fun _ _ _ => requestFailedMsg 3 "boom")
          "John Doe resume text" ⟨"", "", [], ""⟩))
        (fun _ _ _ => .ok "Enhanced resume text.") "John Doe resume text" "Data Scientist"
      ≠ "Enhanced resume text." :=
  ⟨rfl, rfl, by decide⟩

/-- **C3 (amended)** — `clean_enhance_resume` escalates to the local
fallback only when the primary path **raises**: a raised exception routes
to `handle_llm_fallback` with the operation-specific fallback prompt, and
a successful local reply without the `❌` marker is returned to the
caller; a primary result string — sentinel failure strings from the LLM
client included — is merely cleaned by `clean_llm_output` and returned,
with no fallback attempt. -/
theorem c3_fallback_only_on_raised_exception
    (localLlm : String → String → Nat → PyOutcome) (resume role : String) :
    (∀ s, clean_enhance_resume (.ok s) localLlm resume role = clean_llm_output s) ∧
    (∀ e, clean_enhance_resume (.raised e) localLlm resume role
        = handle_llm_fallback localLlm "You are a professional resume editor."
            (enhanceFallbackPrompt resume role) 1200) ∧
    (∀ (sysRole prompt : String) (maxT : Nat) (s : String),
      localLlm sysRole prompt maxT = .ok s → "❌".data.isPrefixOf s.data = false →
      handle_llm_fallback localLlm sysRole prompt maxT = s) := by
  refine ⟨fun s => rfl, fun e => rfl, ?_⟩
  intro sysRole prompt maxT s hcall hpre
  unfold handle_llm_fallback
  rw [hcall]
  simp only [hpre, Bool.false_eq_true, if_false]

theorem c3_fallback_only_on_raised_exception_witness :
    clean_enhance_resume (.raised "TypeError: sequence item 0")
        (fun _ _ _ => .ok "Polished resume.") "John Doe resume text" "Data Scientist"
      = handle_llm_fallback (fun _ _ _ => .ok "Polished resume.")
          "You are a professional resume editor."
          (enhanceFallbackPrompt "John Doe resume text" "Data Scientist") 1200 ∧
    handle_llm_fallback (fun _ _ _ => .ok "Polished resume.")
        "You are a professional resume editor."
        (enhanceFallbackPrompt "John Doe resume text" "Data Scientist") 1200
      = "Polished resume." ∧
    clean_enhance_resume (.ok "## Enhanced\nGreat resume")
        (fun _ _ _ => .ok "Polished resume.") "John Doe resume text" "Data Scientist"
      = clean_llm_output "## Enhanced\nGreat resume" := by
  have h := c3_fallback_only_on_raised_exception
    (fun _ _ _ => .ok "Polished resume.") "John Doe resume text" "Data Scientist"
  exact ⟨h.2.1 "TypeError: sequence item 0",
    h.2.2 "You are a professional resume editor."
      (enhanceFallbackPrompt "John Doe resume text" "Data Scientist") 1200
      "Polished resume." rfl (by decide),
    h.1 "## Enhanced\nGreat resume"⟩
